import Mathlib

/-!
Shallow embedding of the request-time core of
`src/super_badass_videos_web_server.py` (token lifecycle, catalog cache,
connection registry, HTTP range arithmetic), with theorems settling the
spec claims against it.

Times are modelled as natural numbers (seconds); the Python dict
`valid_tokens` is modelled as an association list with unique keys.
-/

namespace VideoShare

/-- Token record. The Python store maps a token string either to a bare
number (legacy encoding, with `-1` as the "already used" sentinel) or to a
dict with keys `expire_time` and `used_time` (the latter `None` until first
use); `TokenInfo.legacy` and `TokenInfo.stored` mirror the two shapes. -/
inductive TokenInfo where
  | legacy (v : Int)
  | stored (expire_time : Nat) (used_time : Option Nat)
deriving DecidableEq

/-- `TOKEN_USED_CLEANUP_TIME = 3600` (line 115): the one-hour grace window. -/
def TOKEN_USED_CLEANUP_TIME : Nat := 3600

abbrev TokenStore := List (String × TokenInfo)

/-- The per-entry removal condition of `clean_expired_tokens`
(lines 199-210): a positive legacy timestamp in the past, an unused
structured token past its positive `expire_time`, or a used token past
`used_time + TOKEN_USED_CLEANUP_TIME`. -/
def tokenExpired (info : TokenInfo) (now : Nat) : Bool :=
  match info with
  | .legacy v => v > 0 && (now : Int) > v
  | .stored expire_time used_time =>
    match used_time with
    | none => expire_time > 0 && now > expire_time
    | some ut => now > ut + TOKEN_USED_CLEANUP_TIME

/-- `clean_expired_tokens` (lines 194-215): collects the expired entries,
deletes them from the store, and returns how many were removed. -/
def clean_expired_tokens (store : TokenStore) (now : Nat) : TokenStore × Nat :=
  let kept := store.filter (fun p => !(tokenExpired p.2 now))
  (kept, store.length - kept.length)

/-- `is_token_valid` (lines 217-238): false for an empty/absent token; a
legacy `-1` is always valid and another legacy number is valid while in
the future; a structured token is valid until `expire_time` when unused,
and until `used_time + TOKEN_USED_CLEANUP_TIME` (inclusive) once used. -/
def is_token_valid (store : TokenStore) (token : String) (now : Nat) : Bool :=
  if token = "" then false else
  match store.lookup token with
  | none => false
  | some (.legacy v) => if v = -1 then true else v > (now : Int)
  | some (.stored expire_time used_time) =>
    match used_time with
    | none => expire_time > now
    | some ut => now ≤ ut + TOKEN_USED_CLEANUP_TIME

/-- Outcome of the consume path of `index` (lines 326-345). -/
inductive ConsumeResult where
  | Consumed
  | AlreadyUsed
  | Invalid
deriving DecidableEq

/-- Overwrite the value stored under `token` (Python `valid_tokens[t] = v`
on a present key). -/
def setToken (store : TokenStore) (token : String) (info : TokenInfo) : TokenStore :=
  store.map (fun p => if p.1 = token then (p.1, info) else p)

/-- The `secretnumber` branch of `index` (lines 326-345), for a non-empty
token: first `clean_expired_tokens()` runs, then the token is looked up;
a positive legacy number is consumed by overwriting it with `-1`, a
structured token with `used_time = None` is consumed by stamping
`used_time = now`, anything already used reports failure, and an absent
token is invalid. -/
def consume (store : TokenStore) (token : String) (now : Nat) :
    ConsumeResult × TokenStore :=
  let store1 := (clean_expired_tokens store now).1
  match store1.lookup token with
  | none => (.Invalid, store1)
  | some (.legacy v) =>
    if v > 0 then (.Consumed, setToken store1 token (.legacy (-1)))
    else (.AlreadyUsed, store1)
  | some (.stored expire_time used_time) =>
    match used_time with
    | none => (.Consumed, setToken store1 token (.stored expire_time (some now)))
    | some _ => (.AlreadyUsed, store1)

/-- `verify_secret` (lines 1701-1715): on password match, a fresh token is
stored with `expire_time = now + 300` and `used_time = None` and returned;
otherwise nothing is created. `newToken` stands for the fresh
`secrets.token_urlsafe(32)` value. -/
def verify_secret (store : TokenStore) (configPassword givenPassword : String)
    (newToken : String) (now : Nat) : Option String × TokenStore :=
  if givenPassword = configPassword then
    (some newToken, (newToken, .stored (now + 300) none) :: store)
  else
    (none, store)

/-- The parts of the `video` route's range response observable to a client
(lines 2491-2500): status, `Content-Range` header, `Content-Length`
header, and the byte sequence actually produced for the body. -/
structure RangeResponse where
  status : Nat
  contentRange : String
  contentLength : Nat
  body : List Nat
deriving DecidableEq

/-- Range arithmetic of `video` (lines 2478-2486): `byte1`/`byte2` default
to `0` and `size - 1` when the corresponding bound is missing from
`bytes=A-B`, then `byte1` is clamped into `[0, size-1]` and `byte2` into
`[byte1, size-1]`. -/
def parseRangeBounds (optA optB : Option Nat) (size : Nat) : Nat × Nat :=
  let byte1 := optA.getD 0
  let byte2 := optB.getD (size - 1)
  let b1 := max 0 (min byte1 (size - 1))
  let b2 := max b1 (min byte2 (size - 1))
  (b1, b2)

/-- The range branch of `video` (lines 2478-2500) on a file whose bytes
are `fileBytes`. The headers are computed from the clamped bounds; the
body is empty because `generate_range` (lines 2489-2490) consists of a
docstring alone — it yields no chunks, so the streamed body holds no
bytes. -/
def video_range_response (fileBytes : List Nat) (optA optB : Option Nat) :
    RangeResponse :=
  let size := fileBytes.length
  let b := parseRangeBounds optA optB size
  { status := 206
    contentRange := "bytes " ++ toString b.1 ++ "-" ++ toString b.2 ++ "/" ++ toString size
    contentLength := b.2 - b.1 + 1
    body := [] }

/-- Modelled from the spec: the body the specification demands for
`bytes=A-B` — the `B - A + 1` bytes of the file at offsets `A` through
`B`. Stated from the spec's words for comparison with the code's
`video_range_response`. -/
def specRangeBody (fileBytes : List Nat) (a b : Nat) : List Nat :=
  (fileBytes.drop a).take (b - a + 1)

/-- One catalog's cache cell of `video_list_cache` (lines 154-157). -/
structure CacheEntry where
  files : List String
  last_update : Nat
deriving DecidableEq

/-- `VIDEO_CACHE_EXPIRE = 300` (line 159): the five-minute cache TTL. -/
def VIDEO_CACHE_EXPIRE : Nat := 300

/-- What the filesystem would report if scanned right now: whether the
catalog root exists, and the media files a recursive scan would return. -/
structure FsView where
  root_exists : Bool
  scan : List String

/-- `get_video_list` (lines 161-192) for one catalog key. The cached list
is returned only when `force_refresh` is false, the cached `files` list is
non-empty (Python's truthiness test `cache_data['files']`), and the entry
is younger than the TTL; otherwise a missing root stores and returns an
empty list, and an existing root stores and returns the scan result. -/
def get_video_list (cache : CacheEntry) (now : Nat) (force_refresh : Bool)
    (fs : FsView) : List String × CacheEntry :=
  if !force_refresh && !cache.files.isEmpty
      && now - cache.last_update < VIDEO_CACHE_EXPIRE then
    (cache.files, cache)
  else if !fs.root_exists then
    ([], ⟨[], now⟩)
  else
    (fs.scan, ⟨fs.scan, now⟩)

/-- The connection registry `active_connections`, reduced to the fields
the claims touch: client address and `last_seen` timestamp. -/
abbrev Registry := List (String × Nat)

/-- `MAX_CONNECTIONS = 100` (line 121). -/
def MAX_CONNECTIONS : Nat := 100

/-- `cleanup_oldest_connections` (lines 272-279): when the registry is at
or above capacity, the `count` sessions with the smallest `last_seen` are
deleted. -/
def cleanup_oldest_connections (reg : Registry) (count : Nat) : Registry :=
  if MAX_CONNECTIONS ≤ reg.length then
    (reg.insertionSort (fun a b => a.2 ≤ b.2)).drop count
  else reg

/-- The locked section of `track_connection` (lines 294-315): a new
address is inserted with the current time (evicting a batch of 10 first if
the registry is still full), while a known address only has its
`last_seen` and port refreshed. -/
def track_connection_locked (reg : Registry) (ip : String) (now : Nat) :
    Registry :=
  if reg.lookup ip = none then
    (ip, now) ::
      (if MAX_CONNECTIONS ≤ reg.length then cleanup_oldest_connections reg 10
       else reg)
  else
    reg.map (fun p => if p.1 = ip then (ip, now) else p)

/-- `track_connection` (lines 281-315), sequential execution: the unlocked
pre-check (lines 291-292) evicts a batch of 10 when the address is new and
the registry is full, then the locked section runs. -/
def track_connection (reg : Registry) (ip : String) (now : Nat) : Registry :=
  track_connection_locked
    (if reg.lookup ip = none ∧ MAX_CONNECTIONS ≤ reg.length then
      cleanup_oldest_connections reg 10
     else reg) ip now

/-- A registry holding exactly `MAX_CONNECTIONS` distinct addresses, used
to exercise the capacity path. -/
def bigRegistry : Registry := (List.range MAX_CONNECTIONS).map
  (fun i => (Nat.repr i, i))

/-- Path normalisation as the operating system resolves `..` and `.`
segments when opening a file: `..` pops the last segment, `.` is dropped. -/
def normalizePath (segs : List String) : List String :=
  segs.foldl
    (fun acc s => if s = ".." then acc.dropLast else if s = "." then acc else acc ++ [s])
    []

/-- The path `video` opens (line 2434): `os.path.join(video_root, filename)`
with the client-supplied `filename` appended verbatim, then resolved by
the OS. -/
def video_resolved_path (root fname : List String) : List String :=
  normalizePath (root ++ fname)

/-- The serving decision of `video` (lines 2434-2437): the file at the
joined path is served exactly when it exists (`os.path.isfile`); there is
no check that the resolved path stays under `root`. -/
def video_serves (fileExists : List String → Bool) (root fname : List String) :
    Bool :=
  fileExists (video_resolved_path root fname)

/-- Progress of one request thread through the unlocked consume section of
`index` (lines 338-343): it reads `used_time`, then acts on the value it
read. -/
inductive ThreadState where
  | start
  | readDone (r : Option Nat)
  | finished (res : ConsumeResult)
deriving DecidableEq

/-- One step of a thread in the consume section: from `start` it reads the
shared `used_time`; after a read of `None` it writes `used_time = now` and
observes `Consumed`; after a read of a set `used_time` it observes
`AlreadyUsed`. The read and the write are separate steps because no lock
guards `valid_tokens` — this is exactly the interleaving unit of the
Python bytecode. -/
def stepThread (used : Option Nat) (ts : ThreadState) (now : Nat) :
    Option Nat × ThreadState :=
  match ts with
  | .start => (used, .readDone used)
  | .readDone none => (some now, .finished .Consumed)
  | .readDone (some _) => (used, .finished .AlreadyUsed)
  | .finished r => (used, .finished r)

/-- Shared token field plus the two racing threads' states. -/
structure RaceState where
  used : Option Nat
  t1 : ThreadState
  t2 : ThreadState
deriving DecidableEq

/-- Run a schedule over two threads racing in `index`'s consume section:
`true` steps thread 1, `false` steps thread 2. -/
def runSched (s : RaceState) (now : Nat) : List Bool → RaceState
  | [] => s
  | b :: rest =>
    if b then
      let u := stepThread s.used s.t1 now
      runSched ⟨u.1, u.2, s.t2⟩ now rest
    else
      let u := stepThread s.used s.t2 now
      runSched ⟨u.1, s.t1, u.2⟩ now rest

section Helpers

variable {β : Type}

/-- A key that matches no entry of an association list is not found. -/
lemma lookup_none_of_forall_ne (l : List (String × β)) (k : String)
    (h : ∀ p ∈ l, p.1 ≠ k) : l.lookup k = none := by
  induction l with
  | nil => rfl
  | cons a t ih =>
    have ha : a.1 ≠ k := h a (by simp)
    rw [List.lookup]
    have hb : (k == a.1) = false := by simp [ha.symm]
    rw [hb]
    exact ih (fun p hp => h p (by simp [hp]))

/-- A found entry that the filter keeps is still found after filtering. -/
lemma lookup_filter_some (p : String × β → Bool) (l : List (String × β))
    (k : String) (v : β)
    (h : l.lookup k = some v) (hp : p (k, v) = true) :
    (l.filter p).lookup k = some v := by
  induction l with
  | nil => simp [List.lookup] at h
  | cons a t ih =>
    rw [List.lookup] at h
    by_cases hk : k = a.1
    · have hb : (k == a.1) = true := by simp [hk]
      rw [hb] at h
      have hv : a.2 = v := by simpa using h
      have hpa : p a = true := by
        have hav : a = (k, v) := by cases a; simp_all
        rw [hav]; exact hp
      rw [List.filter_cons, hpa]
      simp only [if_true]
      rw [List.lookup, hb]
      simp [hv]
    · have hb : (k == a.1) = false := by simp [hk]
      rw [hb] at h
      rw [List.filter_cons]
      by_cases hpa : p a = true
      · rw [hpa]; simp only [if_true]
        rw [List.lookup, hb]
        exact ih h
      · simp only [hpa]
        simp only [Bool.false_eq_true, if_false]
        exact ih h

/-- In a list with pairwise-distinct keys (a dict), a found entry that the
filter drops is absent after filtering. -/
lemma lookup_filter_none (p : String × β → Bool) (l : List (String × β))
    (k : String) (v : β)
    (hnd : (l.map Prod.fst).Nodup) (h : l.lookup k = some v)
    (hp : p (k, v) = false) :
    (l.filter p).lookup k = none := by
  induction l with
  | nil => simp [List.lookup] at h
  | cons a t ih =>
    rw [List.map_cons, List.nodup_cons] at hnd
    obtain ⟨hnot, hndt⟩ := hnd
    rw [List.lookup] at h
    by_cases hk : k = a.1
    · have hb : (k == a.1) = true := by simp [hk]
      rw [hb] at h
      have hav : a = (k, v) := by cases a; simp_all
      have hpa : p a = false := by rw [hav]; exact hp
      rw [List.filter_cons, hpa]
      simp only [Bool.false_eq_true, if_false]
      refine lookup_none_of_forall_ne _ _ (fun q hq => ?_)
      have hqt : q ∈ t := List.mem_of_mem_filter hq
      intro hqk
      apply hnot
      rw [← hk, ← hqk]
      exact List.mem_map.mpr ⟨q, hqt, rfl⟩
    · have hb : (k == a.1) = false := by simp [hk]
      rw [hb] at h
      rw [List.filter_cons]
      by_cases hpa : p a = true
      · rw [hpa]; simp only [if_true]
        rw [List.lookup, hb]
        exact ih hndt h
      · simp only [hpa]
        simp only [Bool.false_eq_true, if_false]
        exact ih hndt h

end Helpers

/-- C9: the `video` endpoint joins the client-supplied relative path onto
the catalog root with no containment check; the request path
`../../etc/passwd` (which contains `..` segments) resolves outside the
root `srv/share`, and the endpoint serves that file exactly when it
exists. -/
theorem video_path_traversal :
    ".." ∈ (["..", "..", "etc", "passwd"] : List String) ∧
    (video_resolved_path ["srv", "share"] ["..", "..", "etc", "passwd"]).take 2 ≠
      ["srv", "share"] ∧
    ∀ fileExists : List String → Bool,
      video_serves fileExists ["srv", "share"] ["..", "..", "etc", "passwd"] =
        fileExists ["etc", "passwd"] := by
  refine ⟨by decide, by decide, fun fileExists => rfl⟩

/-- C1: with two request threads racing through `index`'s unlocked
check-then-set on a freshly issued token (`used_time = None`), the
interleaving read₁, read₂, write₁, write₂ makes both threads observe a
successful first consumption — not exactly one `Consumed` as the claim
demands. -/
theorem index_race_two_consumed :
    (runSched ⟨none, ThreadState.start, ThreadState.start⟩ 5
        [true, false, true, false]).t1 =
      ThreadState.finished ConsumeResult.Consumed ∧
    (runSched ⟨none, ThreadState.start, ThreadState.start⟩ 5
        [true, false, true, false]).t2 =
      ThreadState.finished ConsumeResult.Consumed := by
  exact ⟨rfl, rfl⟩

/-- C2: for a 10-byte file and `Range: bytes=2-5`, the code answers 206
with `Content-Range: bytes 2-5/10` and `Content-Length: 4`, but the body
it streams is empty — not the 4 bytes at offsets 2..5 that the claim (and
the code's own `Content-Length`) promise, because `generate_range` yields
nothing. -/
theorem range_request_body_empty :
    (video_range_response (List.range 10) (some 2) (some 5)).status = 206 ∧
    (video_range_response (List.range 10) (some 2) (some 5)).contentRange =
      "bytes 2-5/10" ∧
    (video_range_response (List.range 10) (some 2) (some 5)).contentLength = 4 ∧
    (video_range_response (List.range 10) (some 2) (some 5)).body = [] ∧
    specRangeBody (List.range 10) 2 5 = [2, 3, 4, 5] ∧
    (video_range_response (List.range 10) (some 2) (some 5)).body ≠
      specRangeBody (List.range 10) 2 5 := by
  refine ⟨rfl, by decide, rfl, rfl, by decide, by decide⟩

/-- C8: serving a file with the open-ended range `bytes=A-` produces
exactly the same response (status, `Content-Range`, `Content-Length`, and
body) as the explicit range `bytes=A-(S-1)`: the missing upper bound
defaults to `size - 1` before the clamp, so the computations coincide. -/
theorem open_range_equiv (fileBytes : List Nat) (a : Nat)
    (h : a < fileBytes.length) :
    video_range_response fileBytes (some a) none =
      video_range_response fileBytes (some a) (some (fileBytes.length - 1)) := rfl

/-- Witness for C8 at a 10-byte file and `A = 2`. -/
theorem open_range_equiv_witness :
    2 < (List.range 10).length ∧
    video_range_response (List.range 10) (some 2) none =
      video_range_response (List.range 10) (some 2)
        (some ((List.range 10).length - 1)) :=
  ⟨by decide, open_range_equiv (List.range 10) 2 (by decide)⟩

/-- C6: with the catalog root missing at time 0, `get_video_list` stores
and returns the empty list; but a second call at time 10 — well inside the
300-second TTL, without `force_refresh` — rescans anyway (the truthiness
guard `cache_data['files']` rejects an empty cached list) and returns the
new scan `[a.mp4]`, not the cached empty list the claim promises. -/
theorem empty_cache_rescan :
    get_video_list ⟨[], 0⟩ 0 false ⟨false, []⟩ = ([], ⟨[], 0⟩) ∧
    get_video_list ⟨[], 0⟩ 10 false ⟨true, ["a.mp4"]⟩ =
      (["a.mp4"], ⟨["a.mp4"], 10⟩) ∧
    (["a.mp4"] : List String) ≠ [] := by
  exact ⟨rfl, rfl, by decide⟩

/-- C4: a token consumed (first used) at time `ut` is still reported valid
by `is_token_valid` at every time up to `ut + 1 hour` inclusive, and
reported invalid at every later time. -/
theorem consumed_token_grace_window (store : TokenStore) (token : String)
    (e ut now : Nat) (htok : token ≠ "")
    (hl : store.lookup token = some (.stored e (some ut))) :
    (now ≤ ut + TOKEN_USED_CLEANUP_TIME → is_token_valid store token now = true) ∧
    (ut + TOKEN_USED_CLEANUP_TIME < now → is_token_valid store token now = false) := by
  unfold is_token_valid
  rw [if_neg htok, hl]
  constructor
  · intro h
    simpa using h
  · intro h
    simpa using Nat.not_le.mpr h

/-- Witness for C4: a token used at time 100 is valid at 3700 and invalid
at 3701. -/
theorem consumed_token_grace_window_witness :
    is_token_valid [("t", TokenInfo.stored 400 (some 100))] "t" 3700 = true ∧
    is_token_valid [("t", TokenInfo.stored 400 (some 100))] "t" 3701 = false :=
  ⟨(consumed_token_grace_window [("t", TokenInfo.stored 400 (some 100))] "t"
      400 100 3700 (by decide) (by decide)).1 (by decide),
   (consumed_token_grace_window [("t", TokenInfo.stored 400 (some 100))] "t"
      400 100 3701 (by decide) (by decide)).2 (by decide)⟩

/-- C10: a token stored under the legacy numeric encoding with the
sentinel `-1` is permanently valid — `is_token_valid` answers true at
every time — and `clean_expired_tokens` never removes it (the sweep
condition requires a positive legacy value), so the maintenance path never
retires it. -/
theorem legacy_sentinel_permanent (store : TokenStore) (token : String)
    (now : Nat) (htok : token ≠ "")
    (hl : store.lookup token = some (.legacy (-1))) :
    is_token_valid store token now = true ∧
    (clean_expired_tokens store now).1.lookup token = some (.legacy (-1)) := by
  constructor
  · unfold is_token_valid
    rw [if_neg htok, hl]
    simp
  · exact lookup_filter_some _ _ _ _ hl (by simp [tokenExpired])

/-- Witness for C10 at a concrete store and time. -/
theorem legacy_sentinel_permanent_witness :
    is_token_valid [("t", TokenInfo.legacy (-1))] "t" 999999 = true ∧
    (clean_expired_tokens [("t", TokenInfo.legacy (-1))] 999999).1.lookup "t" =
      some (TokenInfo.legacy (-1)) :=
  legacy_sentinel_permanent [("t", TokenInfo.legacy (-1))] "t" 999999
    (by decide) (by decide)

/-- C5: a token issued at `issueT` (hence `expire_time = issueT + 300`)
that is still unused once `expire_time` lies in the past is removed from
the store by `clean_expired_tokens`, and every subsequent `is_token_valid`
call on that identifier, at any time, answers false. -/
theorem sweep_removes_expired_unused (store : TokenStore) (token : String)
    (issueT now : Nat) (htok : token ≠ "")
    (hnd : (store.map Prod.fst).Nodup)
    (hl : store.lookup token = some (.stored (issueT + 300) none))
    (hexp : issueT + 300 < now) :
    (clean_expired_tokens store now).1.lookup token = none ∧
    ∀ t, is_token_valid (clean_expired_tokens store now).1 token t = false := by
  have hrem : (clean_expired_tokens store now).1.lookup token = none := by
    apply lookup_filter_none _ _ _ _ hnd hl
    simp [tokenExpired]
    omega
  refine ⟨hrem, fun t => ?_⟩
  unfold is_token_valid
  rw [if_neg htok, hrem]

/-- Witness for C5: a token issued at 0 and unused is swept at time 301
and invalid afterwards. -/
theorem sweep_removes_expired_unused_witness :
    (clean_expired_tokens [("t", TokenInfo.stored 300 none)] 301).1.lookup "t" =
      none ∧
    is_token_valid (clean_expired_tokens [("t", TokenInfo.stored 300 none)] 301).1
      "t" 999 = false :=
  ⟨(sweep_removes_expired_unused [("t", TokenInfo.stored 300 none)] "t" 0 301
      (by decide) (by simp) (by decide) (by decide)).1,
   (sweep_removes_expired_unused [("t", TokenInfo.stored 300 none)] "t" 0 301
      (by decide) (by simp) (by decide) (by decide)).2 999⟩

/-- Consuming a store whose first entry is the unused token: the entry
survives the opening sweep, the lookup hits it, and it is stamped with
`used_time = now` while the call reports `Consumed`. -/
lemma consume_head_unused (tail : TokenStore) (token : String) (e t : Nat)
    (hkeep : tokenExpired (TokenInfo.stored e none) t = false) :
    ∃ tail2 : TokenStore,
      consume ((token, TokenInfo.stored e none) :: tail) token t =
        (ConsumeResult.Consumed, (token, TokenInfo.stored e (some t)) :: tail2) := by
  refine ⟨(tail.filter (fun p => !(tokenExpired p.2 t))).map
      (fun p => if p.1 = token then (p.1, TokenInfo.stored e (some t)) else p), ?_⟩
  unfold consume clean_expired_tokens
  simp only [List.filter_cons, hkeep, Bool.not_false, if_true]
  rw [List.lookup]
  simp only [beq_self_eq_true]
  simp [setToken]

/-- Consuming a store whose first entry is the token already used at `ut`,
within the grace window: the call reports `AlreadyUsed`. -/
lemma consume_head_used (tail : TokenStore) (token : String) (e ut t : Nat)
    (hkeep : tokenExpired (TokenInfo.stored e (some ut)) t = false) :
    (consume ((token, TokenInfo.stored e (some ut)) :: tail) token t).1 =
      ConsumeResult.AlreadyUsed := by
  unfold consume clean_expired_tokens
  simp only [List.filter_cons, hkeep, Bool.not_false, if_true]
  rw [List.lookup]
  simp only [beq_self_eq_true]

/-- C3: sequentially, `verify_secret` with the correct password issues a
token with `expire_time = now + 300` and `used_time = None` whose
validation (before expiry) reports it valid and unused; the first consume
of that token returns `Consumed`, and a second consume (within the grace
window) returns `AlreadyUsed`. -/
theorem issue_consume_consume_scenario (rest : TokenStore) (pw token : String)
    (now t1 t2 t3 : Nat) (htok : token ≠ "")
    (h1 : t1 < now + 300) (h2 : t2 ≤ now + 300)
    (h3 : t3 ≤ t2 + TOKEN_USED_CLEANUP_TIME) :
    (verify_secret rest pw pw token now).1 = some token ∧
    (verify_secret rest pw pw token now).2.lookup token =
      some (TokenInfo.stored (now + 300) none) ∧
    is_token_valid (verify_secret rest pw pw token now).2 token t1 = true ∧
    (consume (verify_secret rest pw pw token now).2 token t2).1 =
      ConsumeResult.Consumed ∧
    (consume (consume (verify_secret rest pw pw token now).2 token t2).2
        token t3).1 = ConsumeResult.AlreadyUsed := by
  have hst : (verify_secret rest pw pw token now).2 =
      (token, TokenInfo.stored (now + 300) none) :: rest := by
    simp [verify_secret]
  have hlook : (verify_secret rest pw pw token now).2.lookup token =
      some (TokenInfo.stored (now + 300) none) := by
    rw [hst, List.lookup]
    simp
  have hkeep2 : tokenExpired (TokenInfo.stored (now + 300) none) t2 = false := by
    simp only [tokenExpired]
    simp
    omega
  have hkeep3 :
      tokenExpired (TokenInfo.stored (now + 300) (some t2)) t3 = false := by
    simp only [tokenExpired]
    simp
    omega
  obtain ⟨tail2, hc⟩ := consume_head_unused rest token (now + 300) t2 hkeep2
  refine ⟨by simp [verify_secret], hlook, ?_, ?_, ?_⟩
  · unfold is_token_valid
    rw [if_neg htok, hlook]
    simpa using h1
  · rw [hst, hc]
  · rw [hst, hc]
    exact consume_head_used tail2 token (now + 300) t2 t3 hkeep3

/-- Witness for C3: issue at time 0, validate at 10, consume at 20,
consume again at 30. -/
theorem issue_consume_consume_scenario_witness :
    (verify_secret [] "pw" "pw" "t" 0).1 = some "t" ∧
    (verify_secret [] "pw" "pw" "t" 0).2.lookup "t" =
      some (TokenInfo.stored 300 none) ∧
    is_token_valid (verify_secret [] "pw" "pw" "t" 0).2 "t" 10 = true ∧
    (consume (verify_secret [] "pw" "pw" "t" 0).2 "t" 20).1 =
      ConsumeResult.Consumed ∧
    (consume (consume (verify_secret [] "pw" "pw" "t" 0).2 "t" 20).2
        "t" 30).1 = ConsumeResult.AlreadyUsed :=
  issue_consume_consume_scenario [] "pw" "t" 0 10 20 30
    (by decide) (by decide) (by decide) (by decide)

/-- A key absent from an association list matches none of its entries. -/
lemma forall_ne_of_lookup_none {β : Type} (l : List (String × β)) (k : String)
    (h : l.lookup k = none) : ∀ p ∈ l, p.1 ≠ k := by
  induction l with
  | nil => simp
  | cons a t ih =>
    rw [List.lookup] at h
    by_cases hk : k = a.1
    · rw [show (k == a.1) = true by simp [hk]] at h
      simp at h
    · rw [show (k == a.1) = false by simp [hk]] at h
      intro p hp
      rcases List.mem_cons.mp hp with rfl | hpt
      · exact fun he => hk he.symm
      · exact ih h p hpt

/-- Evicting the oldest batch from a full registry shrinks it by `count`. -/
lemma cleanup_oldest_length (reg : Registry) (count : Nat)
    (h : MAX_CONNECTIONS ≤ reg.length) :
    (cleanup_oldest_connections reg count).length = reg.length - count := by
  unfold cleanup_oldest_connections
  rw [if_pos h, List.length_drop, List.length_insertionSort]

/-- Eviction never introduces an address: an address absent before
`cleanup_oldest_connections` is absent after it. -/
lemma cleanup_oldest_lookup_none (reg : Registry) (count : Nat) (ip : String)
    (h : reg.lookup ip = none) :
    (cleanup_oldest_connections reg count).lookup ip = none := by
  apply lookup_none_of_forall_ne
  intro p hp
  apply forall_ne_of_lookup_none reg ip h
  unfold cleanup_oldest_connections at hp
  by_cases hfull : MAX_CONNECTIONS ≤ reg.length
  · rw [if_pos hfull] at hp
    exact (List.mem_insertionSort _).mp (List.drop_subset _ _ hp)
  · rwa [if_neg hfull] at hp

/-- One sequential `track_connection` call keeps the registry within the
capacity bound. -/
lemma track_connection_length_le (reg : Registry) (ip : String) (now : Nat)
    (h : reg.length ≤ MAX_CONNECTIONS) :
    (track_connection reg ip now).length ≤ MAX_CONNECTIONS := by
  unfold track_connection
  by_cases habs : reg.lookup ip = none
  · by_cases hfull : MAX_CONNECTIONS ≤ reg.length
    · have houter :
          (if reg.lookup ip = none ∧ MAX_CONNECTIONS ≤ reg.length then
            cleanup_oldest_connections reg 10
           else reg) = cleanup_oldest_connections reg 10 :=
        if_pos (And.intro habs hfull)
      rw [houter]
      unfold track_connection_locked
      have hlen1 : (cleanup_oldest_connections reg 10).length = reg.length - 10 :=
        cleanup_oldest_length reg 10 hfull
      rw [if_pos (cleanup_oldest_lookup_none reg 10 ip habs)]
      have hmax : MAX_CONNECTIONS = 100 := rfl
      have hne : ¬ MAX_CONNECTIONS ≤ (cleanup_oldest_connections reg 10).length := by
        rw [hlen1, hmax]
        rw [hmax] at hfull h
        omega
      rw [if_neg hne]
      rw [List.length_cons, hlen1]
      rw [hmax] at hfull ⊢
      omega
    · have houter :
          (if reg.lookup ip = none ∧ MAX_CONNECTIONS ≤ reg.length then
            cleanup_oldest_connections reg 10
           else reg) = reg := if_neg (fun hc => hfull hc.2)
      rw [houter]
      unfold track_connection_locked
      rw [if_pos habs, if_neg hfull]
      rw [List.length_cons]
      have hmax : MAX_CONNECTIONS = 100 := rfl
      rw [hmax] at hfull ⊢
      omega
  · have houter :
        (if reg.lookup ip = none ∧ MAX_CONNECTIONS ≤ reg.length then
          cleanup_oldest_connections reg 10
         else reg) = reg := if_neg (fun hc => habs hc.1)
    rw [houter]
    unfold track_connection_locked
    rw [if_neg habs, List.length_map]
    exact h

/-- C7: for any sequence of tracked requests (arbitrary addresses and
times), the registry grown from empty by `track_connection` never exceeds
`MAX_CONNECTIONS`; and when a new address arrives with the registry
exactly at capacity, the batch of 10 oldest-by-`last_seen` sessions is
evicted before insertion, leaving 91 sessions. -/
theorem registry_never_exceeds_max :
    (∀ ops : List (String × Nat),
      (ops.foldl (fun r op => track_connection r op.1 op.2) []).length ≤
        MAX_CONNECTIONS) ∧
    (∀ (reg : Registry) (ip : String) (now : Nat),
      reg.length = MAX_CONNECTIONS → reg.lookup ip = none →
      (track_connection reg ip now).length = 91) := by
  constructor
  · have haux : ∀ (ops : List (String × Nat)) (reg : Registry),
        reg.length ≤ MAX_CONNECTIONS →
        (ops.foldl (fun r op => track_connection r op.1 op.2) reg).length ≤
          MAX_CONNECTIONS := by
      intro ops
      induction ops with
      | nil => intro reg h; exact h
      | cons op rest ih =>
        intro reg h
        exact ih _ (track_connection_length_le reg op.1 op.2 h)
    intro ops
    exact haux ops [] (by simp [MAX_CONNECTIONS])
  · intro reg ip now hlen habs
    have hfull : MAX_CONNECTIONS ≤ reg.length := by omega
    unfold track_connection
    have houter :
        (if reg.lookup ip = none ∧ MAX_CONNECTIONS ≤ reg.length then
          cleanup_oldest_connections reg 10
         else reg) = cleanup_oldest_connections reg 10 :=
      if_pos (And.intro habs hfull)
    rw [houter]
    unfold track_connection_locked
    have hlen1 : (cleanup_oldest_connections reg 10).length = reg.length - 10 :=
      cleanup_oldest_length reg 10 hfull
    rw [if_pos (cleanup_oldest_lookup_none reg 10 ip habs)]
    have hmax : MAX_CONNECTIONS = 100 := rfl
    have hne : ¬ MAX_CONNECTIONS ≤ (cleanup_oldest_connections reg 10).length := by
      rw [hlen1, hlen, hmax]
      omega
    rw [if_neg hne]
    rw [List.length_cons, hlen1, hlen]
    rfl

/-- Witness for C7's capacity case: a full 100-entry registry receiving a
new address drops to 91 sessions. -/
theorem registry_never_exceeds_max_witness :
    bigRegistry.length = MAX_CONNECTIONS ∧
    bigRegistry.lookup "new" = none ∧
    (track_connection bigRegistry "new" 5).length = 91 :=
  ⟨by decide, by decide,
   registry_never_exceeds_max.2 bigRegistry "new" 5 (by decide) (by decide)⟩

end VideoShare
